import Mathlib

/-!
Shallow embedding of the iButton cloner firmware (src/iButton-cloner-nano.ino):
the EEPROM slot store, the slot-selector resolution, the CRC-8 routine of the
attached one-wire library, the serial-console command cases, the button
branches of `loop`, and the bit-level `writeByte` primitive.
-/

/-- The EEPROM, modelled as a total map from byte address to stored value. -/
abbrev Store := Nat → Nat

/-- Embedding of `EEPROM.write(a, v)`: point update of the store. -/
def EEPROM.write (s : Store) (a v : Nat) : Store := fun x => if x = a then v else s x

/-- Embedding of `EEPROM.read(a)`. -/
def EEPROM.read (s : Store) (a : Nat) : Nat := s a

theorem EEPROM.read_write (s : Store) (a v x : Nat) :
    EEPROM.read (EEPROM.write s a v) x = if x = a then v else EEPROM.read s x := rfl

/-- A `for(x = 0; x < n; x++) EEPROM.write((f x).1, (f x).2)` loop:
`writeSeq f s n` performs the writes `f 0`, `f 1`, ..., `f (n-1)` in order. -/
def writeSeq (f : Nat → Nat × Nat) : Store → Nat → Store
  | s, 0 => s
  | s, n + 1 => EEPROM.write (writeSeq f s n) (f n).1 (f n).2

theorem writeSeq_read_miss (f : Nat → Nat × Nat) (s : Store) (n a : Nat)
    (h : ∀ j, j < n → (f j).1 ≠ a) :
    EEPROM.read (writeSeq f s n) a = EEPROM.read s a := by
  induction n with
  | zero => rfl
  | succ n ih =>
    have hne : a ≠ (f n).1 := fun he => h n (Nat.lt_succ_self n) he.symm
    have step : EEPROM.read (writeSeq f s (n + 1)) a = EEPROM.read (writeSeq f s n) a := by
      simp [writeSeq, EEPROM.read, EEPROM.write, hne]
    rw [step]
    exact ih fun j hj => h j (Nat.lt_succ_of_lt hj)

theorem writeSeq_read_hit (f : Nat → Nat × Nat) (s : Store) (n i : Nat)
    (hi : i < n) (h : ∀ j, i < j → j < n → (f j).1 ≠ (f i).1) :
    EEPROM.read (writeSeq f s n) (f i).1 = (f i).2 := by
  induction n with
  | zero => omega
  | succ n ih =>
    by_cases hin : i = n
    · subst hin
      simp [writeSeq, EEPROM.read, EEPROM.write]
    · have hi' : i < n := by omega
      have hne : (f i).1 ≠ (f n).1 := fun he => h n (by omega) (by omega) he.symm
      have step : EEPROM.read (writeSeq f s (n + 1)) (f i).1
          = EEPROM.read (writeSeq f s n) (f i).1 := by
        simp [writeSeq, EEPROM.read, EEPROM.write, hne]
      rw [step]
      exact ih hi' fun j h1 h2 => h j h1 (by omega)

/-- Embedding of `update_slot`'s selector read: `slot = 0; for(x<4) slot |=
digitalRead(SLOT[x]) << x`.  `pins x` is the level read on selector line `x`. -/
def update_slot (pins : Nat → Bool) : Nat :=
  (List.range 4).foldl (fun s x => s ||| ((if pins x then 1 else 0) <<< x)) 0

theorem lor_eq_zero_split (x y : Nat) : x ||| y = 0 ↔ x = 0 ∧ y = 0 := by
  constructor
  · intro h
    constructor
    · refine Nat.eq_of_testBit_eq fun i => ?_
      have hb : (x ||| y).testBit i = false := by rw [h]; exact Nat.zero_testBit i
      rw [Nat.testBit_or] at hb
      simp only [Bool.or_eq_false_iff] at hb
      simp [hb.1]
    · refine Nat.eq_of_testBit_eq fun i => ?_
      have hb : (x ||| y).testBit i = false := by rw [h]; exact Nat.zero_testBit i
      rw [Nat.testBit_or] at hb
      simp only [Bool.or_eq_false_iff] at hb
      simp [hb.2]
  · rintro ⟨rfl, rfl⟩
    rfl

theorem update_slot_lt (pins : Nat → Bool) : update_slot pins < 16 := by
  unfold update_slot
  cases h0 : pins 0 <;> cases h1 : pins 1 <;> cases h2 : pins 2 <;> cases h3 : pins 3 <;>
    simp [List.range_succ, h0, h1, h2, h3]

/-- Embedding of the accumulator loop in `slot_is_full`:
`result = 0; for(x < n) result |= EEPROM.read(x + base)`. -/
def or_bytes (s : Store) (base : Nat) : Nat → Nat
  | 0 => 0
  | n + 1 => or_bytes s base n ||| EEPROM.read s (n + base)

/-- Embedding of `slot_is_full()`: ORs the 8 identifier bytes of the slot and
compares the result with zero. -/
def slot_is_full (s : Store) (slot : Nat) : Bool :=
  if or_bytes s (slot <<< 5) 8 = 0 then false else true

theorem or_bytes_eq_zero (s : Store) (base : Nat) (n : Nat) :
    or_bytes s base n = 0 ↔ ∀ x, x < n → EEPROM.read s (x + base) = 0 := by
  induction n with
  | zero => simp [or_bytes]
  | succ n ih =>
    rw [or_bytes, lor_eq_zero_split, ih]
    constructor
    · rintro ⟨hall, hlast⟩ x hx
      rcases Nat.lt_succ_iff_lt_or_eq.mp hx with h | h
      · exact hall x h
      · rw [h]; exact hlast
    · intro hall
      exact ⟨fun x hx => hall x (Nat.lt_succ_of_lt hx), hall n (Nat.lt_succ_self n)⟩

/-- Embedding of the 16-byte zeroing loop used by the serial clear command and
the button-chord erase: `for(x < 16) EEPROM.write(x + base, 0x00)`. -/
def clear_slot (s : Store) (base : Nat) : Store :=
  writeSeq (fun x => (x + base, 0)) s 16

theorem clear_slot_read (s : Store) (base x : Nat) (hx : x < 16) :
    EEPROM.read (clear_slot s base) (x + base) = 0 :=
  writeSeq_read_hit (fun x => (x + base, 0)) s 16 x hx (by intro j h1 h2; simp; omega)

theorem clear_slot_read_out (s : Store) (base a : Nat) (ha : ∀ x, x < 16 → a ≠ x + base) :
    EEPROM.read (clear_slot s base) a = EEPROM.read s a :=
  writeSeq_read_miss (fun x => (x + base, 0)) s 16 a (by intro j hj he; exact ha j hj he.symm)

/-- The machine's global mutable state used by `loop`: the EEPROM, the global
`slot` byte, the global 8-byte `code` buffer and the `serial_choice` flag. -/
structure Mach where
  store : Store
  slot : Nat
  code : Nat → Nat
  serial_choice : Int

/-- Embedding of the `update_slot()` routine: re-reads the 4 selector lines into
the global `slot` and loads the slot's 8 identifier bytes into `code`. -/
def run_update_slot (m : Mach) (pins : Nat → Bool) : Mach :=
  let slot := update_slot pins
  { m with
    slot := slot
    code := fun x => if x < 8 then EEPROM.read m.store (x + (slot <<< 5)) else m.code x }

theorem slot_is_full_false_iff (s : Store) (slot : Nat) :
    slot_is_full s slot = false ↔ ∀ x, x < 8 → EEPROM.read s (x + (slot <<< 5)) = 0 := by
  rw [show slot_is_full s slot = false ↔ or_bytes s (slot <<< 5) 8 = 0 by
    unfold slot_is_full; split <;> simp_all]
  exact or_bytes_eq_zero s (slot <<< 5) 8

/-- C6: the emptiness test (`slot_is_full = false`) holds iff all 8 identifier
bytes of the slot are 0x00; clearing the slot zeroes all 16 record bytes, and
the slot tests empty immediately afterwards. -/
theorem C6_emptiness_invariant (s : Store) (slot : Nat) :
    (slot_is_full s slot = false ↔ ∀ x, x < 8 → EEPROM.read s (x + (slot <<< 5)) = 0) ∧
    (∀ x, x < 16 → EEPROM.read (clear_slot s (slot <<< 5)) (x + (slot <<< 5)) = 0) ∧
    slot_is_full (clear_slot s (slot <<< 5)) slot = false := by
  refine ⟨slot_is_full_false_iff s slot, fun x hx => clear_slot_read s (slot <<< 5) x hx, ?_⟩
  exact (slot_is_full_false_iff (clear_slot s (slot <<< 5)) slot).mpr
    fun x hx => clear_slot_read s (slot <<< 5) x (by omega)

def storeAllFF : Store := fun _ => 0xFF

theorem C6_emptiness_invariant_witness :
    EEPROM.read (clear_slot storeAllFF (3 <<< 5)) (5 + (3 <<< 5)) = 0 :=
  (C6_emptiness_invariant storeAllFF 3).2.1 5 (by decide)

/-- C10: after every run of the slot-resolution routine the global slot index is
below 16, and every derived record address `off + (slot << 5)` with field
offset below 16 stays below 512, inside the 16-slot region. -/
theorem C10_slot_bounds (m : Mach) (pins : Nat → Bool) :
    (run_update_slot m pins).slot < 16 ∧
    ∀ off, off < 16 → off + ((run_update_slot m pins).slot <<< 5) < 512 := by
  have h : (run_update_slot m pins).slot = update_slot pins := rfl
  have hlt := update_slot_lt pins
  refine ⟨by rw [h]; exact hlt, fun off hoff => ?_⟩
  rw [h, Nat.shiftLeft_eq]
  have : (2 : Nat) ^ 5 = 32 := by norm_num
  rw [this]
  omega

def machFF : Mach := { store := storeAllFF, slot := 0, code := fun _ => 0, serial_choice := -1 }

theorem C10_slot_bounds_witness :
    15 + ((run_update_slot machFF (fun _ => true)).slot <<< 5) < 512 :=
  (C10_slot_bounds machFF (fun _ => true)).2 15 (by decide)

/-- One transmitted bit slot of `writeByte`: how long the line is explicitly
held low (`delayMicroseconds`) before it is released, and the `delay` recovery
in milliseconds that follows.  `lowMicros = 0` is the brief pull-low-and-release
pulse with no explicit hold. -/
structure BitSlot where
  lowMicros : Nat
  recoveryMillis : Nat
deriving DecidableEq

/-- Embedding of the loop body of `writeByte`: at each of `n` iterations the
low bit of `data` (`data & 1`) selects the slot shape, then `data >>= 1`. -/
def writeBits : Nat → Nat → List BitSlot
  | 0, _ => []
  | n + 1, data =>
    (if data &&& 1 = 1 then ⟨60, 10⟩ else ⟨0, 10⟩) :: writeBits n (data >>> 1)

/-- Embedding of `writeByte(data)`: 8 bit slots, least significant bit first. -/
def writeByte (data : Nat) : List BitSlot := writeBits 8 data

theorem writeBits_length (n : Nat) : ∀ data, (writeBits n data).length = n := by
  induction n with
  | zero => intro data; rfl
  | succ n ih => intro data; simp [writeBits, ih]

theorem writeBits_get (n : Nat) : ∀ data i, i < n →
    (writeBits n data)[i]? =
      some (if (data >>> i) &&& 1 = 1 then ⟨60, 10⟩ else ⟨0, 10⟩) := by
  induction n with
  | zero => intro data i hi; omega
  | succ n ih =>
    intro data i hi
    cases i with
    | zero => simp [writeBits]
    | succ i =>
      rw [writeBits]
      simp only [List.getElem?_cons_succ]
      rw [ih (data >>> 1) i (by omega)]
      have hsh : data >>> (i + 1) = (data >>> 1) >>> i := by
        rw [Nat.shiftRight_succ_inside, Nat.shiftRight_one]
      rw [hsh]

/-- C2 fails as stated: the byte 0x00 has a 0 bit in every position, yet its
first transmitted slot holds the line low for 0 explicit microseconds (the
brief pulse), not 60 — in this code the 60µs hold belongs to a 1 bit. -/
theorem C2_counterexample :
    (0 >>> 0) &&& 1 = 0 ∧
    ((writeByte 0)[0]?).map BitSlot.lowMicros = some 0 ∧
    some (0 : Nat) ≠ some 60 := by decide

/-- C2 amended: for every byte passed to `writeByte` and every one of its 8 bit
slots, a 1 bit is transmitted by holding the line low for 60 microseconds, and
a 0 bit with only a brief low pulse followed by releasing the line (no explicit
hold), each slot followed by the 10 ms recovery delay before the next slot. -/
theorem C2_bit_timing (data i : Nat) (hi : i < 8) :
    (writeByte data).length = 8 ∧
    ∃ s : BitSlot, (writeByte data)[i]? = some s ∧ s.recoveryMillis = 10 ∧
      ((data >>> i) &&& 1 = 1 → s.lowMicros = 60) ∧
      ((data >>> i) &&& 1 = 0 → s.lowMicros = 0) := by
  refine ⟨writeBits_length 8 data, ?_⟩
  rw [writeByte, writeBits_get 8 data i hi]
  refine ⟨if (data >>> i) &&& 1 = 1 then ⟨60, 10⟩ else ⟨0, 10⟩, rfl, ?_, ?_, ?_⟩
  · split <;> rfl
  · intro h; simp [h]
  · intro h; simp [h]

theorem C2_bit_timing_witness :
    ∃ s : BitSlot, (writeByte 0xA5)[2]? = some s ∧ s.recoveryMillis = 10 ∧
      ((0xA5 >>> 2) &&& 1 = 1 → s.lowMicros = 60) ∧
      ((0xA5 >>> 2) &&& 1 = 0 → s.lowMicros = 0) :=
  (C2_bit_timing 0xA5 2 (by decide)).2

/-- Embedding of the inner 8-iteration loop of `OneWire::crc8` (the Dallas /
Maxim CRC-8, polynomial 0x8C in right-shift form), folding one input byte into
the running crc. -/
def crc8Update : Nat → Nat → Nat → Nat
  | 0, crc, _ => crc
  | i + 1, crc, inbyte =>
    crc8Update i
      (if (crc ^^^ inbyte) &&& 1 ≠ 0 then (crc / 2) ^^^ 0x8C else crc / 2)
      (inbyte / 2)

/-- Embedding of `OneWire::crc8(addr, len)` over the byte list `l`. -/
def crc8 (l : List Nat) : Nat := l.foldl (fun crc b => crc8Update 8 crc b) 0

/-- Embedding of the store mutations of the accepted-input path of serial case
1 (`W`): write the family code 0x0C at byte 0 of the slot, the six operator
bytes at bytes 1..6, the CRC-8 of the 7-byte `start` array at byte 7, then the
8 label bytes at bytes 8..15 (the `% 256` is the `(byte)` cast). -/
def setSlotStore (s : Store) (base : Nat) (payload label : Nat → Nat) : Store :=
  let s1 := EEPROM.write s (0 + base) 0x0C
  let start : Nat → Nat := fun x => if x = 0 then 0x0C else payload (x - 1) % 256
  let s2 := writeSeq (fun x => (x + base + 1, payload x % 256)) s1 6
  let s3 := EEPROM.write s2 (7 + base) (crc8 ((List.range 7).map start))
  writeSeq (fun x => (x + 8 + base, label x % 256)) s3 8

/-- Embedding of serial case 1 (`W` command, well-formed input): re-resolve the
slot, perform the identifier and label writes, reset `serial_choice` to -1. -/
def case_write_serial (m : Mach) (pins : Nat → Bool) (payload label : Nat → Nat) : Mach :=
  let m1 := run_update_slot m pins
  { m1 with
    store := setSlotStore m1.store (m1.slot <<< 5) payload label
    serial_choice := -1 }

theorem setSlotStore_read_payload (s : Store) (base : Nat) (payload label : Nat → Nat)
    (x : Nat) (hx : x < 6) :
    EEPROM.read (setSlotStore s base payload label) (x + base + 1) = payload x % 256 := by
  unfold setSlotStore
  rw [writeSeq_read_miss _ _ 8 _ (by intro j hj; dsimp only; omega)]
  rw [EEPROM.read_write, if_neg (by omega)]
  exact writeSeq_read_hit (fun x => (x + base + 1, payload x % 256)) _ 6 x hx
    (by intro j h1 h2; dsimp only; omega)

theorem setSlotStore_read_family (s : Store) (base : Nat) (payload label : Nat → Nat) :
    EEPROM.read (setSlotStore s base payload label) (0 + base) = 0x0C := by
  unfold setSlotStore
  rw [writeSeq_read_miss _ _ 8 _ (by intro j hj; dsimp only; omega)]
  rw [EEPROM.read_write, if_neg (by omega)]
  rw [writeSeq_read_miss _ _ 6 _ (by intro j hj; dsimp only; omega)]
  rw [EEPROM.read_write, if_pos rfl]

theorem setSlotStore_read_crc (s : Store) (base : Nat) (payload label : Nat → Nat) :
    EEPROM.read (setSlotStore s base payload label) (7 + base) =
      crc8 ((List.range 7).map fun x => if x = 0 then 0x0C else payload (x - 1) % 256) := by
  unfold setSlotStore
  rw [writeSeq_read_miss _ _ 8 _ (by intro j hj; dsimp only; omega)]
  rw [EEPROM.read_write, if_pos rfl]

theorem setSlotStore_read_mid (s : Store) (base : Nat) (payload label : Nat → Nat)
    (x : Nat) (h1 : 1 ≤ x) (h2 : x < 7) :
    EEPROM.read (setSlotStore s base payload label) (x + base) = payload (x - 1) % 256 := by
  have := setSlotStore_read_payload s base payload label (x - 1) (by omega)
  rwa [show x - 1 + base + 1 = x + base by omega] at this

/-- C5: the console write path stores, at the slot resolved from the selector,
an identifier whose byte 0 is the family code 0x0C, whose bytes 1..6 are the
operator payload in order, and whose byte 7 is the CRC-8 of bytes 0..6; reading
the slot back, byte 7 equals the checksum of the identifier's own first 7
bytes. -/
theorem C5_console_write (m : Mach) (pins : Nat → Bool) (payload label : Nat → Nat) :
    EEPROM.read (case_write_serial m pins payload label).store
        (0 + (update_slot pins <<< 5)) = 0x0C ∧
    (∀ x, x < 6 →
      EEPROM.read (case_write_serial m pins payload label).store
        (x + (update_slot pins <<< 5) + 1) = payload x % 256) ∧
    EEPROM.read (case_write_serial m pins payload label).store
        (7 + (update_slot pins <<< 5)) =
      crc8 ((List.range 7).map fun x =>
        EEPROM.read (case_write_serial m pins payload label).store
          (x + (update_slot pins <<< 5))) := by
  have hstore : (case_write_serial m pins payload label).store =
      setSlotStore m.store (update_slot pins <<< 5) payload label := rfl
  rw [hstore]
  refine ⟨setSlotStore_read_family _ _ _ _,
          fun x hx => setSlotStore_read_payload _ _ _ _ x hx, ?_⟩
  rw [setSlotStore_read_crc]
  congr 1
  refine List.map_congr_left fun x hx => ?_
  have hx7 : x < 7 := by simpa using List.mem_range.mp hx
  by_cases h0 : x = 0
  · subst h0
    rw [setSlotStore_read_family]
    simp
  · rw [setSlotStore_read_mid _ _ _ _ x (by omega) hx7, if_neg h0]

theorem C5_console_write_witness :
    EEPROM.read
        (case_write_serial machFF (fun _ => false) (fun x => x + 0x11) (fun _ => 0x41)).store
        (3 + (update_slot (fun _ => false) <<< 5) + 1) = (3 + 0x11) % 256 :=
  (C5_console_write machFF (fun _ => false) (fun x => x + 0x11) (fun _ => 0x41)).2.1 3
    (by decide)

/-- Outcome indications (the LED patterns) signalled by the button branches. -/
inductive Signal
  | greenBlink5
  | redBlink5
  | redFlash
deriving DecidableEq

/-- Embedding of the 8-byte identifier write of the capture branch:
`for(i < 8) { EEPROM.write(i + (slot << 5), addr[i]); code[i] = addr[i]; }`. -/
def capture_write (s : Store) (base : Nat) (addr : Nat → Nat) : Store :=
  writeSeq (fun i => (i + base, addr i)) s 8

/-- Embedding of the READ-button branch of `loop`: re-resolve the slot; if no
device answered the one-wire search, flash red and return without touching the
store; otherwise persist the 8 searched bytes as-is and blink green.  `device`
is the identifier the search filled into `addr`, or `none` when the search
returned 0. -/
def read_branch (m : Mach) (pins : Nat → Bool) (device : Option (Nat → Nat)) :
    Mach × Signal :=
  let m1 := run_update_slot m pins
  match device with
  | none => (m1, Signal.redFlash)
  | some addr =>
    ({ m1 with
        store := capture_write m1.store (m1.slot <<< 5) addr
        code := fun i => if i < 8 then addr i else m1.code i }, Signal.greenBlink5)

/-- C8: capturing a device identifier X into the selected slot stores X as-is;
reading that slot back yields X byte for byte, with no alteration. -/
theorem C8_capture_roundtrip (m : Mach) (pins : Nat → Bool) (addr : Nat → Nat) :
    (read_branch m pins (some addr)).1.slot = update_slot pins ∧
    (read_branch m pins (some addr)).2 = Signal.greenBlink5 ∧
    ∀ i, i < 8 →
      EEPROM.read (read_branch m pins (some addr)).1.store
        (i + ((read_branch m pins (some addr)).1.slot <<< 5)) = addr i := by
  refine ⟨rfl, rfl, fun i hi => ?_⟩
  exact writeSeq_read_hit (fun i => (i + (update_slot pins <<< 5), addr i)) _ 8 i hi
    (by intro j h1 h2; simp; omega)

theorem C8_capture_roundtrip_witness :
    EEPROM.read (read_branch machFF (fun _ => true) (some fun i => i * 3)).1.store
      (4 + ((read_branch machFF (fun _ => true) (some fun i => i * 3)).1.slot <<< 5)) = 4 * 3 :=
  (C8_capture_roundtrip machFF (fun _ => true) (fun i => i * 3)).2.2 4 (by decide)

/-- Bus-level commands issued through the one-wire library and `writeByte`.
`search` is the full `OneWire::search` transaction (which itself begins with a
bus reset and a search-ROM exchange); `skipRom` is `skip()` (the 0xCC skip-ROM
command, with no reset of its own); `writeCmd` is `OneWire::write` of a command
byte; `writeDataByte` is one identifier byte sent bit-by-bit by `writeByte`. -/
inductive BusEvent
  | search
  | reset
  | skipRom
  | writeCmd (b : Nat)
  | writeDataByte (b : Nat)
deriving DecidableEq

/-- The bus commands the WRITE-button branch issues after its successful
search, in source order: `skip(); reset(); write(0x33); skip(); reset();
write(0xD5);` then the 8 `code` bytes via `writeByte`, then a final
`reset()`. -/
def program_bus_trace (code : Nat → Nat) : List BusEvent :=
  [BusEvent.search, BusEvent.skipRom, BusEvent.reset, BusEvent.writeCmd 0x33,
   BusEvent.skipRom, BusEvent.reset, BusEvent.writeCmd 0xD5] ++
  (List.range 8).map (fun x => BusEvent.writeDataByte (code x)) ++
  [BusEvent.reset]

/-- Embedding of the WRITE-button branch of `loop`: re-resolve the slot; if the
slot is empty, blink red 5 times with no bus activity; otherwise search for the
device (absent device: red flash after the search), and on success issue the
programming sequence then blink green.  Returns the machine, the signalled
outcome, and the list of bus commands issued. -/
def write_branch (m : Mach) (pins : Nat → Bool) (device : Option (Nat → Nat)) :
    Mach × Signal × List BusEvent :=
  let m1 := run_update_slot m pins
  if slot_is_full m1.store m1.slot then
    match device with
    | none => (m1, Signal.redFlash, [BusEvent.search])
    | some _ => (m1, Signal.greenBlink5, program_bus_trace m1.code)
  else
    (m1, Signal.redBlink5, [])

/-- C7: requesting Program on a slot whose 8 identifier bytes are all zero
performs no bus transaction of any kind, leaves the store unchanged, and
signals the slot-empty failure (5 red blinks). -/
theorem C7_program_empty_slot (m : Mach) (pins : Nat → Bool)
    (device : Option (Nat → Nat))
    (h : ∀ x, x < 8 → EEPROM.read m.store (x + (update_slot pins <<< 5)) = 0) :
    (write_branch m pins device).2.2 = [] ∧
    (write_branch m pins device).1.store = m.store ∧
    (write_branch m pins device).2.1 = Signal.redBlink5 := by
  have hcond : slot_is_full (run_update_slot m pins).store (run_update_slot m pins).slot
      = false := (slot_is_full_false_iff m.store (update_slot pins)).mpr h
  refine ⟨?_, ?_, ?_⟩ <;>
    simp only [write_branch, hcond, Bool.false_eq_true, if_false] <;> rfl

def storeZero : Store := fun _ => 0

def machZero : Mach := { store := storeZero, slot := 0, code := fun _ => 0, serial_choice := -1 }

theorem C7_program_empty_slot_witness :
    (write_branch machZero (fun _ => false) none).2.2 = [] :=
  (C7_program_empty_slot machZero (fun _ => false) none (fun _ _ => rfl)).1

/-- The programming sequence as the specification words it (§4.5 Program,
steps (1) to (8)): reset, skip-ROM, reset, write-memory opcode, reset,
copy/load opcode, the 8 identifier bytes one by one, final reset. -/
def spec_program_trace (code : Nat → Nat) : List BusEvent :=
  [BusEvent.reset, BusEvent.skipRom, BusEvent.reset, BusEvent.writeCmd 0x33,
   BusEvent.reset, BusEvent.writeCmd 0xD5] ++
  (List.range 8).map (fun x => BusEvent.writeDataByte (code x)) ++
  [BusEvent.reset]

def c1Store : Store := fun a => if a = 0 then 0x0C else 0

def c1Mach : Mach := { store := c1Store, slot := 0, code := fun _ => 0, serial_choice := -1 }

/-- C1 fails as stated: on a populated slot with a device present the bus
commands actually issued do not follow the spec's eight-step order — the branch
opens with the search transaction, not a bare reset, and a second skip-ROM (not
present in the claimed order) is issued between the write-memory opcode and the
reset that precedes the copy opcode. -/
theorem C1_counterexample :
    (write_branch c1Mach (fun _ => false) (some fun _ => 0)).2.2 ≠
      spec_program_trace fun x =>
        EEPROM.read c1Store (x + (update_slot (fun _ => false) <<< 5)) := by
  decide

/-- C1 amended: on a populated slot with a device present the bus commands are
issued in exactly this order: the device search transaction (which itself
begins with a bus reset), skip-ROM, bus reset, write-memory opcode 0x33,
skip-ROM again, bus reset, copy/load opcode 0xD5, then the 8 identifier bytes
of the selected slot in order (byte 0 first, checksum byte last), then a final
bus reset. -/
theorem C1_program_sequence (m : Mach) (pins : Nat → Bool) (addr : Nat → Nat)
    (hfull : slot_is_full m.store (update_slot pins) = true) :
    (write_branch m pins (some addr)).2.2 =
      [BusEvent.search, BusEvent.skipRom, BusEvent.reset, BusEvent.writeCmd 0x33,
       BusEvent.skipRom, BusEvent.reset, BusEvent.writeCmd 0xD5] ++
      (List.range 8).map (fun x =>
        BusEvent.writeDataByte (EEPROM.read m.store (x + (update_slot pins <<< 5)))) ++
      [BusEvent.reset] := by
  have hcond : slot_is_full (run_update_slot m pins).store (run_update_slot m pins).slot
      = true := hfull
  have hmap : (List.range 8).map
        (fun x => BusEvent.writeDataByte ((run_update_slot m pins).code x))
      = (List.range 8).map (fun x =>
          BusEvent.writeDataByte (EEPROM.read m.store (x + (update_slot pins <<< 5)))) := by
    refine List.map_congr_left fun x hx => ?_
    have hx8 : x < 8 := List.mem_range.mp hx
    have hcode : (run_update_slot m pins).code x
        = if x < 8 then EEPROM.read m.store (x + (update_slot pins <<< 5))
          else m.code x := rfl
    rw [hcode, if_pos hx8]
  simp only [write_branch, hcond, if_true]
  unfold program_bus_trace
  rw [hmap]

theorem C1_program_sequence_witness :
    (write_branch c1Mach (fun _ => false) (some fun _ => 0)).2.2 =
      [BusEvent.search, BusEvent.skipRom, BusEvent.reset, BusEvent.writeCmd 0x33,
       BusEvent.skipRom, BusEvent.reset, BusEvent.writeCmd 0xD5] ++
      (List.range 8).map (fun x =>
        BusEvent.writeDataByte
          (EEPROM.read c1Mach.store (x + (update_slot (fun _ => false) <<< 5)))) ++
      [BusEvent.reset] :=
  C1_program_sequence c1Mach (fun _ => false) (fun _ => 0) (by decide)

/-- Embedding of serial case 0 (`R` command): re-resolve the slot (the rest of
the case only prints), then reset `serial_choice` to -1. -/
def case_read (m : Mach) (pins : Nat → Bool) : Mach :=
  { run_update_slot m pins with serial_choice := -1 }

/-- Embedding of serial case 2 (`C` command): re-resolve the slot, zero the 16
record bytes, then reset `serial_choice` to -1. -/
def case_clear (m : Mach) (pins : Nat → Bool) : Mach :=
  let m1 := run_update_slot m pins
  { m1 with store := clear_slot m1.store (m1.slot <<< 5), serial_choice := -1 }

/-- What `print_mem(lower, upper)` prints for slot `slot`: the record bytes
`lower <= x < upper` when the slot is full, or `none` for the
empty-slot marker. -/
def print_mem (s : Store) (slot lower upper : Nat) : Option (List Nat) :=
  if slot_is_full s slot then
    some ((List.range' lower (upper - lower)).map fun x => EEPROM.read s (x + (slot <<< 5)))
  else none

/-- What `print_mem_name()` prints for slot `slot`: `none` is the unnamed
marker (first label byte 0x00); otherwise the label bytes up to, and not
including, the first 0x00 (at most 8). -/
def print_mem_name (s : Store) (slot : Nat) : Option (List Nat) :=
  if EEPROM.read s (0 + 8 + (slot <<< 5)) = 0 then none
  else some (((List.range 8).map fun x => EEPROM.read s (x + 8 + (slot <<< 5))).takeWhile
    fun v => v != 0)

/-- One line of the dump-all output: the slot index, what the name printer
showed, and what the memory printer showed. -/
structure DumpEntry where
  slotIdx : Nat
  nameShown : Option (List Nat)
  idShown : Option (List Nat)
deriving DecidableEq

/-- Embedding of serial case 3 (`D` command): the global `slot` iterates from 0
to 15, printing each slot's name and record bytes 1..6; the loop leaves the
global slot at 16, and this case has no `serial_choice = -1` statement. -/
def case_dump (m : Mach) : Mach × List DumpEntry :=
  ({ m with slot := 16 },
   (List.range 16).map fun sl =>
     { slotIdx := sl
       nameShown := print_mem_name m.store sl
       idShown := print_mem m.store sl 1 7 })

/-- Embedding of one step of the command parser in `loop`: when
`serial_choice` is -1 the capitalized incoming character selects the command;
otherwise the character is ignored. -/
def parse_char (sc : Int) (c : Char) : Int :=
  if sc = -1 then
    let u := c.toUpper
    if u = 'R' then 0
    else if u = 'W' then 1
    else if u = 'C' then 2
    else if u = 'D' then 3
    else sc
  else sc

/-- Embedding of the `switch (serial_choice)` dispatch of `loop`: cases 0..2
run their command and reset `serial_choice` to -1; case 3 dumps and leaves
`serial_choice` untouched; the default case resets it. -/
def switch_serial (m : Mach) (pins : Nat → Bool) (payload label : Nat → Nat) :
    Mach × List DumpEntry :=
  if m.serial_choice = 0 then (case_read m pins, [])
  else if m.serial_choice = 1 then (case_write_serial m pins payload label, [])
  else if m.serial_choice = 2 then (case_clear m pins, [])
  else if m.serial_choice = 3 then case_dump m
  else ({ m with serial_choice := -1 }, [])

/-- C3 fails on the code: the read, write and clear console commands return
`serial_choice` to the idle value -1, but the dump-all case leaves it at 3, so
after one `D` command every further command character is ignored by the parser
(which only reads characters while `serial_choice` is -1) and a different
operation can never be started from the console again. -/
theorem C3_dump_never_returns_idle (m : Mach) (pins : Nat → Bool)
    (payload label : Nat → Nat) (h : m.serial_choice = -1) :
    (switch_serial { m with serial_choice := parse_char m.serial_choice 'R' }
      pins payload label).1.serial_choice = -1 ∧
    (switch_serial { m with serial_choice := parse_char m.serial_choice 'W' }
      pins payload label).1.serial_choice = -1 ∧
    (switch_serial { m with serial_choice := parse_char m.serial_choice 'C' }
      pins payload label).1.serial_choice = -1 ∧
    (switch_serial { m with serial_choice := parse_char m.serial_choice 'D' }
      pins payload label).1.serial_choice = 3 ∧
    parse_char 3 'R' = 3 := by
  rw [h]
  exact ⟨rfl, rfl, rfl, rfl, rfl⟩

theorem C3_dump_never_returns_idle_witness :
    (switch_serial { machFF with serial_choice := parse_char machFF.serial_choice 'D' }
      (fun _ => false) (fun _ => 0) (fun _ => 0)).1.serial_choice = 3 :=
  (C3_dump_never_returns_idle machFF (fun _ => false) (fun _ => 0) (fun _ => 0)
    rfl).2.2.2.1

/-- Embedding of the both-buttons branch of `loop`: three 1-second red blinks
with both buttons re-checked after each (releasing either aborts with no
mutation, collapsed into `held`); surviving all three, the 16 record bytes at
the current *global* `slot` — which this branch never re-reads from the
selector — are zeroed. -/
def chord_branch (m : Mach) (held : Bool) : Mach :=
  if held then { m with store := clear_slot m.store (m.slot <<< 5) } else m

/-- C4 fails on the code: the button-chord erase never calls `update_slot`, so
it clears the record of the stale global `slot` (0 at power-on) even while the
selector lines read slot 5, whose record it leaves untouched. -/
theorem C4_chord_uses_stale_slot (m : Mach) (pins : Nat → Bool)
    (hstale : m.slot = 0) (hsel : update_slot pins = 5) :
    (∀ x, x < 16 → EEPROM.read (chord_branch m true).store x = 0) ∧
    (∀ a, 160 ≤ a → EEPROM.read (chord_branch m true).store a = EEPROM.read m.store a) ∧
    (chord_branch m true).slot ≠ update_slot pins := by
  have hstore : (chord_branch m true).store = clear_slot m.store (m.slot <<< 5) := rfl
  have hslot : (chord_branch m true).slot = m.slot := rfl
  refine ⟨fun x hx => ?_, fun a ha => ?_, ?_⟩
  · rw [hstore, hstale]
    have := clear_slot_read m.store (0 <<< 5) x hx
    simpa using this
  · rw [hstore, hstale]
    exact clear_slot_read_out m.store (0 <<< 5) a (by intro x hx; simp; omega)
  · rw [hslot, hstale, hsel]
    omega

theorem C4_chord_uses_stale_slot_witness :
    EEPROM.read (chord_branch machFF true).store 7 = 0 :=
  (C4_chord_uses_stale_slot machFF (fun x => x == 0 || x == 2) rfl
    (by decide)).1 7 (by decide)

/-- The 8 identifier bytes of slot `slot` as read back from the store. -/
def readId (s : Store) (slot : Nat) : List Nat :=
  (List.range 8).map fun x => EEPROM.read s (x + (slot <<< 5))

def c9Store : Store := fun a => if a < 8 then a + 1 else 0

def c9Mach : Mach := { store := c9Store, slot := 0, code := fun _ => 0, serial_choice := 3 }

/-- C9 fails as stated: with slot 0 populated (identifier bytes 1..8), its dump
entry shows only record bytes 1..6 — `print_mem(1, 7)` skips the family-code
byte 0 and the checksum byte 7 — so the entry does not show the stored 8-byte
identifier. -/
theorem C9_counterexample :
    slot_is_full c9Store 0 = true ∧
    ((case_dump c9Mach).2.map DumpEntry.idShown)[0]? = some (some [2, 3, 4, 5, 6, 7]) ∧
    readId c9Store 0 = [1, 2, 3, 4, 5, 6, 7, 8] ∧
    some (some [2, 3, 4, 5, 6, 7]) ≠ some (some [1, 2, 3, 4, 5, 6, 7, 8]) := by
  decide

/-- C9 amended: dump-all always produces exactly 16 entries, for slot indices
0 through 15 in order; a populated slot's entry shows bytes 1..6 of its stored
identifier (the family-code byte 0 and the checksum byte 7 are not printed)
together with the slot's label; an empty slot's entry carries the empty-slot
marker instead of identifier bytes. -/
theorem C9_dump_entries (m : Mach) :
    ((case_dump m).2).length = 16 ∧
    (∀ i, i < 16 →
      ((case_dump m).2)[i]? = some
        { slotIdx := i
          nameShown := print_mem_name m.store i
          idShown := print_mem m.store i 1 7 }) ∧
    (∀ i, i < 16 → slot_is_full m.store i = false →
      (((case_dump m).2)[i]?).map DumpEntry.idShown = some none) ∧
    (∀ i, i < 16 → slot_is_full m.store i = true →
      (((case_dump m).2)[i]?).map DumpEntry.idShown =
        some (some ((List.range' 1 6).map fun x =>
          EEPROM.read m.store (x + (i <<< 5))))) := by
  have hget : ∀ i, i < 16 →
      ((case_dump m).2)[i]? = some
        { slotIdx := i
          nameShown := print_mem_name m.store i
          idShown := print_mem m.store i 1 7 } := by
    intro i hi
    have : ((case_dump m).2)[i]?
        = ((List.range 16)[i]?).map fun sl =>
            ({ slotIdx := sl
               nameShown := print_mem_name m.store sl
               idShown := print_mem m.store sl 1 7 } : DumpEntry) := by
      simp [case_dump]
    rw [this, List.getElem?_range hi]
    rfl
  refine ⟨by simp [case_dump], hget, fun i hi hempty => ?_, fun i hi hfull => ?_⟩
  · rw [hget i hi]
    simp [print_mem, hempty]
  · rw [hget i hi]
    simp [print_mem, hfull]

theorem C9_dump_entries_witness :
    (((case_dump c9Mach).2)[0]?).map DumpEntry.idShown =
      some (some ((List.range' 1 6).map fun x =>
        EEPROM.read c9Mach.store (x + (0 <<< 5)))) :=
  (C9_dump_entries c9Mach).2.2.2 0 (by decide) (by decide)
